import Mathlib

/-!
Verification of the OpenNet slot-machine core (`src/slot/*.py`) against its
natural-language specification.  The Python code is shallowly embedded:

* money amounts and multipliers are rationals (`ℚ`), so arithmetic is exact;
* Python exceptions are modelled with `Except String`, the string naming the
  Python exception class (`KeyError`, `ZeroDivisionError`, `ValueError`);
* `random.Random` is modelled by an abstract deterministic generator that is
  threaded through each call, matching the per-instance generators of the code;
* the 3x3 grid is a function `Fin 3 → Fin 3 → ℕ` of symbol keys, row major.
-/

namespace Slot

/-- The fixed symbol table of `symbols.py`: `SymbolSet` maps the five symbol
keys to payout multipliers `{0: 0.25, 1: 0.55, 2: 1.0, 3: 3.0, 4: 5.0}`;
`SymbolSet.get` raises `KeyError` on any other key, which we model by `none`. -/
def multiplier : ℕ → Option ℚ
  | 0 => some (1/4)
  | 1 => some (11/20)
  | 2 => some 1
  | 3 => some 3
  | 4 => some 5
  | _ => none

/-- A 3x3 grid of symbol keys, `grid r c` being row `r`, column `c`
(the row-major `List[List[int]]` of `slot_machine.py`). -/
abbrev Grid : Type := Fin 3 → Fin 3 → ℕ

/-- A winning pattern from `patterns.py`: coordinates on the grid and a
payout weight. -/
structure Pattern where
  coords : List (Fin 3 × Fin 3)
  weight : ℕ
deriving DecidableEq, Repr

/-- The five fixed patterns returned by `winning_patterns()`: the four 2x2
corner blocks with weight 1 and the full 3x3 block with weight 5, in source
order. -/
def winning_patterns : List Pattern :=
  [ ⟨[(0, 0), (0, 1), (1, 0), (1, 1)], 1⟩,
    ⟨[(0, 1), (0, 2), (1, 1), (1, 2)], 1⟩,
    ⟨[(1, 0), (1, 1), (2, 0), (2, 1)], 1⟩,
    ⟨[(1, 1), (1, 2), (2, 1), (2, 2)], 1⟩,
    ⟨[(0, 0), (0, 1), (0, 2), (1, 0), (1, 1), (1, 2), (2, 0), (2, 1), (2, 2)], 5⟩ ]

/-- The symbol at a pattern's first coordinate (`grid[first_r][first_c]` in
`SlotMachine.payout`; the fixed patterns all have nonempty `coords`). -/
def firstSym (g : Grid) (p : Pattern) : ℕ :=
  match p.coords with
  | [] => 0
  | rc :: _ => g rc.1 rc.2

/-- The match test of `SlotMachine.payout`: every cell of the pattern holds
the symbol found at the pattern's first coordinate. -/
def isMatch (g : Grid) (p : Pattern) : Bool :=
  p.coords.all fun rc => g rc.1 rc.2 == firstSym g p

/-- One pattern's contribution inside the `SlotMachine.payout` loop: if the
pattern matches, `bet_amount * multiplier * weight`, where the symbol lookup
can raise `KeyError`; otherwise nothing is added. -/
def patternPayout (bet : ℚ) (g : Grid) (p : Pattern) : Except String ℚ :=
  if isMatch g p then
    match multiplier (firstSym g p) with
    | some m => .ok (bet * m * (p.weight : ℚ))
    | none => .error "KeyError"
  else .ok 0

/-- The accumulation loop of `SlotMachine.payout` over a pattern list. -/
def payoutList (bet : ℚ) (g : Grid) : List Pattern → ℚ → Except String ℚ
  | [], acc => .ok acc
  | p :: ps, acc =>
    match patternPayout bet g p with
    | .ok v => payoutList bet g ps (acc + v)
    | .error e => .error e

/-- `SlotMachine.payout`: total payout of a grid over the five fixed winning
patterns, starting from `0.0`; propagates the `KeyError` of an unknown symbol
key looked up for a matching pattern. -/
def payoutE (bet : ℚ) (g : Grid) : Except String ℚ :=
  payoutList bet g winning_patterns 0

/-- The payout value of a grid when `SlotMachine.payout` returns normally
(`0` in the error case, which the theorems exclude by hypothesis). -/
def payoutD (bet : ℚ) (g : Grid) : ℚ :=
  match payoutE bet g with
  | .ok v => v
  | .error _ => 0

/-- Per-pattern contribution as the spec words it ("Per-match contribution =
`bet_amount × multiplier(symbol) × pattern.weight`", zero for a pattern with
any differing cell); stated independently for comparison with `payoutE`. -/
def specContribution (bet : ℚ) (g : Grid) (p : Pattern) : ℚ :=
  if isMatch g p then bet * ((multiplier (firstSym g p)).getD 0) * (p.weight : ℚ)
  else 0

/-- `Reel.window`: the three consecutive symbols starting at `start`, with
wrap-around modulo the reel length (rows 0..2 of one column). -/
def window (symbols : List ℕ) (start : ℕ) : List ℕ :=
  (List.range 3).map fun off => symbols.getD ((start + off) % symbols.length) 0

/-- `SlotMachine`: three reels (each a list of symbol keys, column 0/1/2) and
a bet amount. -/
structure SlotMachine where
  reels : Fin 3 → List ℕ
  bet_amount : ℚ

/-- `SlotMachine.spin_grid`: each reel yields its window at the given stop as
a column, and the columns are transposed into the row-major grid
(`grid[row][col] = cols[col][row]`). -/
def spin_grid (m : SlotMachine) (stops : Fin 3 → ℕ) : Grid :=
  let cols := fun c : Fin 3 => window (m.reels c) (stops c)
  fun r c => (cols c).getD r.val 0

/-- The metrics record of `exact.py` (`ExactMetrics`). -/
structure ExactMetrics where
  spins : ℕ
  total_bet : ℚ
  total_return : ℚ
  win_rate : ℚ
  rtp : ℚ
deriving DecidableEq, Repr

/-- The stop triples visited by the three nested loops of
`ExactEvaluator.run`, in iteration order. -/
def allStops (L0 L1 L2 : ℕ) : List (ℕ × ℕ × ℕ) :=
  (List.range L0).flatMap fun i =>
    (List.range L1).flatMap fun j =>
      (List.range L2).map fun k => (i, j, k)

/-- The accumulation loop of `ExactEvaluator.run`: for each stop triple,
build the grid, score it, add the payout to the running return and count a
win when the payout is positive. -/
def exactLoop (m : SlotMachine) : List (ℕ × ℕ × ℕ) → ℕ → ℚ → Except String (ℕ × ℚ)
  | [], wins, tr => .ok (wins, tr)
  | s :: rest, wins, tr =>
    match payoutE m.bet_amount (spin_grid m ![s.1, s.2.1, s.2.2]) with
    | .ok p => exactLoop m rest (wins + if 0 < p then 1 else 0) (tr + p)
    | .error e => .error e

/-- `ExactEvaluator.run`: enumerate all `L0*L1*L2` stop combinations, then
form the metrics; both divisions are guarded by a zero test exactly as in the
source. -/
def exactRun (m : SlotMachine) : Except String ExactMetrics :=
  let L0 := (m.reels 0).length
  let L1 := (m.reels 1).length
  let L2 := (m.reels 2).length
  let total_combos := L0 * L1 * L2
  match exactLoop m (allStops L0 L1 L2) 0 0 with
  | .error e => .error e
  | .ok (wins, total_return) =>
    let total_bet : ℚ := (total_combos : ℚ) * m.bet_amount
    let win_rate : ℚ := if 0 < total_combos then (wins : ℚ) / (total_combos : ℚ) else 0
    let rtp : ℚ := if 0 < total_bet then total_return / total_bet else 0
    .ok ⟨total_combos, total_bet, total_return, win_rate, rtp⟩

/-- The metrics record of `simulator.py` (`SimulationResult`). -/
structure SimulationResult where
  spins : ℕ
  total_bet : ℚ
  total_return : ℚ
  win_rate : ℚ
  rtp : ℚ
deriving DecidableEq, Repr

/-- Python's true division: raises `ZeroDivisionError` on a zero divisor. -/
def pydiv (a b : ℚ) : Except String ℚ :=
  if b = 0 then .error "ZeroDivisionError" else .ok (a / b)

/-- One call of `self.random.randrange(reel.length)` on an abstract generator
state: Python raises `ValueError` on an empty range, otherwise the draw is a
uniform value below the length, modelled as the raw generator output reduced
modulo the length. -/
def drawStop {G : Type} (next : G → ℕ × G) (l : List ℕ) (g : G) :
    Except String (ℕ × G) :=
  let vg := next g
  if l.length = 0 then .error "ValueError" else .ok (vg.1 % l.length, vg.2)

/-- The spin loop of `Simulator.run`: draw one stop per reel (in reel order,
threading the instance's generator), build the grid, score it, accumulate. -/
def simLoop {G : Type} (next : G → ℕ × G) (m : SlotMachine) :
    ℕ → G → ℕ → ℚ → Except String (ℕ × ℚ × G)
  | 0, g, wins, tr => .ok (wins, tr, g)
  | n + 1, g, wins, tr =>
    match drawStop next (m.reels 0) g with
    | .error e => .error e
    | .ok (s0, g0) =>
      match drawStop next (m.reels 1) g0 with
      | .error e => .error e
      | .ok (s1, g1) =>
        match drawStop next (m.reels 2) g1 with
        | .error e => .error e
        | .ok (s2, g2) =>
          match payoutE m.bet_amount (spin_grid m ![s0, s1, s2]) with
          | .error e => .error e
          | .ok p => simLoop next m n g2 (wins + if 0 < p then 1 else 0) (tr + p)

/-- `Simulator.run`: run `spins` spins from the instance's generator state,
then form the metrics.  The `win_rate` division `wins / spins` is unguarded
(Python raises `ZeroDivisionError` when `spins = 0`), while the `rtp`
division is guarded by `total_bet > 0`, exactly as in the source. -/
def simRun {G : Type} (next : G → ℕ × G) (m : SlotMachine) (g : G) (spins : ℕ) :
    Except String SimulationResult :=
  match simLoop next m spins g 0 0 with
  | .error e => .error e
  | .ok (wins, total_return, _) =>
    let total_bet : ℚ := (spins : ℚ) * m.bet_amount
    match pydiv (wins : ℚ) (spins : ℚ) with
    | .error e => .error e
    | .ok win_rate =>
      let rtp : ℚ := if 0 < total_bet then total_return / total_bet else 0
      .ok ⟨spins, total_bet, total_return, win_rate, rtp⟩

/-- A reel triple as held by the search (`Tuple[Reel, Reel, Reel]`). -/
abbrev ReelTriple : Type := Fin 3 → List ℕ

/-- `SearchConfig` of `search.py` (defaults: `target_rtp=0.95`,
`min_win_rate=0.55`). -/
structure SearchConfig where
  target_rtp : ℚ
  min_win_rate : ℚ
  max_steps : ℕ
  spins_per_eval : ℕ
  seed : Option ℤ

/-- `Candidate` of `search.py`: a reel triple and its evaluated metrics. -/
structure Candidate where
  reels : ReelTriple
  result : SimulationResult

/-- The mutable loop state of `ReelSearch.search`. -/
structure SearchState where
  current : ReelTriple
  current_res : SimulationResult
  current_loss : ℚ
  best : Candidate
  best_loss : ℚ
  temperature : ℚ

/-- `ReelSearch._loss`: RTP distance plus twice the win-rate shortfall plus a
tenth of the win-rate excess. -/
def loss (cfg : SearchConfig) (r : SimulationResult) : ℚ :=
  |r.rtp - cfg.target_rtp| + 2 * max 0 (cfg.min_win_rate - r.win_rate)
    + (1/10) * max 0 (r.win_rate - cfg.min_win_rate)

/-- The early-exit test of `ReelSearch.search`:
`res.rtp and abs(res.rtp - target_rtp) < 0.01 and res.win_rate >= min_win_rate`
(Python truthiness makes a zero `rtp` fail the first conjunct). -/
def earlyCond (cfg : SearchConfig) (r : SimulationResult) : Bool :=
  (r.rtp != 0) && decide (|r.rtp - cfg.target_rtp| < 1/100)
    && decide (cfg.min_win_rate ≤ r.win_rate)

/-- The step loop of `ReelSearch.search`, over the remaining step indices.
The random parts are abstracted as oracles faithful to the call sites:
`P k cur` is the mutated proposal `self._mutate(current_reels)` at step `k`,
`E k prop` the fresh stochastic sample `self._evaluate(proposal)`, and `M k`
the outcome of the Metropolis comparison `self.rng.random() < prob` (the
acceptance probability is positive, so both outcomes are reachable).  An
accepted improving proposal replaces the tracked best; the temperature cools
by `0.98` every step; the early-exit test then returns the step's proposal
and sample unconditionally. -/
def runSteps (cfg : SearchConfig) (P : ℕ → ReelTriple → ReelTriple)
    (E : ℕ → ReelTriple → SimulationResult) (M : ℕ → Bool) :
    List ℕ → SearchState → Candidate
  | [], st => st.best
  | k :: rest, st =>
    let proposal := P k st.current
    let res := E k proposal
    let l := loss cfg res
    let accept := decide (l < st.current_loss) || M k
    let st' : SearchState :=
      if accept then
        ⟨proposal, res, l,
          if l < st.best_loss then ⟨proposal, res⟩ else st.best,
          if l < st.best_loss then l else st.best_loss,
          st.temperature * (98/100)⟩
      else
        ⟨st.current, st.current_res, st.current_loss, st.best, st.best_loss,
          st.temperature * (98/100)⟩
    if earlyCond cfg res then ⟨proposal, res⟩
    else runSteps cfg P E M rest st'

/-- `ReelSearch.search` from an initial candidate (the random initial reels
and their first evaluation, both abstracted as inputs): run `max_steps`
iterations of the annealing loop and return the tracked best candidate. -/
def search (cfg : SearchConfig) (initReels : ReelTriple)
    (initRes : SimulationResult) (P : ℕ → ReelTriple → ReelTriple)
    (E : ℕ → ReelTriple → SimulationResult) (M : ℕ → Bool) : Candidate :=
  runSteps cfg P E M (List.range cfg.max_steps)
    ⟨initReels, initRes, loss cfg initRes, ⟨initReels, initRes⟩,
      loss cfg initRes, 1⟩

/-- The proposals the loop accepts, in order, when run from a state with the
given current reels and current loss; `none` when some step fires the
early-exit test instead of finishing its iteration normally. -/
def acceptedTrace (cfg : SearchConfig) (P : ℕ → ReelTriple → ReelTriple)
    (E : ℕ → ReelTriple → SimulationResult) (M : ℕ → Bool) :
    List ℕ → ReelTriple → ℚ → Option (List Candidate)
  | [], _, _ => some []
  | k :: rest, cur, cl =>
    let proposal := P k cur
    let res := E k proposal
    let l := loss cfg res
    if earlyCond cfg res then none
    else if decide (l < cl) || M k then
      (acceptedTrace cfg P E M rest proposal l).map fun a => ⟨proposal, res⟩ :: a
    else acceptedTrace cfg P E M rest cur cl

/-- The number of loop iterations `ReelSearch.search` executes (an iteration
ending in the early exit still counts as executed). -/
def stepCount (cfg : SearchConfig) (P : ℕ → ReelTriple → ReelTriple)
    (E : ℕ → ReelTriple → SimulationResult) (M : ℕ → Bool) :
    List ℕ → ReelTriple → ℚ → ℕ
  | [], _, _ => 0
  | k :: rest, cur, cl =>
    let proposal := P k cur
    let res := E k proposal
    let l := loss cfg res
    if earlyCond cfg res then 1
    else if decide (l < cl) || M k then 1 + stepCount cfg P E M rest proposal l
    else 1 + stepCount cfg P E M rest cur cl

/-- `random.Random.randrange(n)` on a raw generator output: `ValueError` on an
empty range, otherwise a uniform value in `[0, n)`, modelled as `raw % n`. -/
def pyrandrange (raw n : ℕ) : Except String ℕ :=
  if n = 0 then .error "ValueError" else .ok (raw % n)

/-- `random.Random.randrange(a, b)` (used as `randrange(1, n)`), with the
Python `ValueError` on an empty range. -/
def pyrandrange2 (raw a b : ℕ) : Except String ℕ :=
  if b ≤ a then .error "ValueError" else .ok (a + raw % (b - a))

/-- `random.Random.randrange(n)` where the Python argument `n` is a possibly
negative `int` expression (such as `nsrc - sl + 1`): `ValueError` when
`n ≤ 0`. -/
def pyrandrangeZ (raw : ℕ) (n : ℤ) : Except String ℕ :=
  if n ≤ 0 then .error "ValueError" else .ok (raw % n.toNat)

/-- `random.Random.randint(a, b)` (both ends inclusive), with the Python
`ValueError` on an empty range. -/
def pyrandint (raw a b : ℕ) : Except String ℕ :=
  if b < a then .error "ValueError" else .ok (a + raw % (b - a + 1))

/-- `rng.choices([0..4], weights=[5,5,4,2,1])`: a categorical draw over the
five symbol keys, modelled by reducing the raw output modulo the total weight
17 and reading the cumulative weight table. -/
def weightedChoice (raw : ℕ) : ℕ :=
  let v := raw % 17
  if v < 5 then 0 else if v < 10 then 1 else if v < 14 then 2
  else if v < 16 then 3 else 4

/-- A reel index drawn by `self.rng.randrange(3)`. -/
def idx3 (raw : ℕ) : Fin 3 :=
  ⟨raw % 3, Nat.mod_lt _ (by omega)⟩

/-- The two distinct positions of `rng.sample(range(n), 2)` (requires
`n ≥ 2`, which the call site guards): the first is uniform over `n` values,
the second over the remaining `n - 1`. -/
def samplePair (raw1 raw2 n : ℕ) : ℕ × ℕ :=
  let a := raw1 % n
  let b0 := raw2 % (n - 1)
  (a, if a ≤ b0 then b0 + 1 else b0)

/-- The in-place writes of the block-strengthening mutation: for
`off in range(1, run)`, `rlist[i][(start + off) % n] = val`, over the fixed
original length `n`. -/
def strengthenList (l : List ℕ) (start run val : ℕ) : List ℕ :=
  (List.range (run - 1)).foldl (fun acc o => acc.set ((start + (o + 1)) % l.length) val) l

/-- The raw generator outputs one `_mutate` call can consume: the branch
selector `choice` (the value of `self.rng.random()`, in `[0, 1)`) and up to
five integer draws, consumed in call order within the chosen branch. -/
structure MutDraws where
  choice : ℚ
  r1 : ℕ
  r2 : ℕ
  r3 : ℕ
  r4 : ℕ
  r5 : ℕ

/-- `ReelSearch._mutate`: one randomly selected mutation operator applied to
a copy of the reel lists.  Branch thresholds 0.25 / 0.5 / 0.7 / 0.85 follow
the source; each operator reads its random draws exactly at the source's call
sites, and every Python `ValueError` of an empty `randrange`/`randint` range
is propagated. -/
def mutate (d : MutDraws) (reels : ReelTriple) : Except String ReelTriple :=
  if d.choice < 1/4 then
    -- swap two positions on a random reel
    let i := idx3 d.r1
    let l := reels i
    if 1 < l.length then
      let ab := samplePair d.r2 d.r3 l.length
      .ok (Function.update reels i ((l.set ab.1 (l.getD ab.2 0)).set ab.2 (l.getD ab.1 0)))
    else .ok reels
  else if d.choice < 1/2 then
    -- tweak a random position with the biased categorical draw
    let i := idx3 d.r1
    let l := reels i
    match pyrandrange d.r2 l.length with
    | .error e => .error e
    | .ok j => .ok (Function.update reels i (l.set j (weightedChoice d.r3)))
  else if d.choice < 7/10 then
    -- rotate a reel by k in [1, n)
    let i := idx3 d.r1
    let l := reels i
    match pyrandrange2 d.r2 1 l.length with
    | .error e => .error e
    | .ok k => .ok (Function.update reels i (l.drop k ++ l.take k))
  else if d.choice < 17/20 then
    -- strengthen a local block: overwrite a wrap-around run with its start value
    let i := idx3 d.r1
    let l := reels i
    match pyrandrange d.r2 l.length with
    | .error e => .error e
    | .ok start =>
      match pyrandint d.r3 2 4 with
      | .error e => .error e
      | .ok run => .ok (Function.update reels i (strengthenList l start run (l.getD start 0)))
  else
    -- copy a short slice within/between reels
    let src := idx3 d.r1
    let dst := idx3 d.r2
    let nsrc := (reels src).length
    let ndst := (reels dst).length
    if 1 < nsrc ∧ 1 < ndst then
      match pyrandint d.r3 2 (min 6 nsrc) with
      | .error e => .error e
      | .ok sl =>
        match pyrandrangeZ d.r4 ((nsrc : ℤ) - (sl : ℤ) + 1) with
        | .error e => .error e
        | .ok s0 =>
          match pyrandrangeZ d.r5 ((ndst : ℤ) - (sl : ℤ) + 1) with
          | .error e => .error e
          | .ok d0 =>
            let seg := ((reels src).drop s0).take sl
            let ldst := reels dst
            .ok (Function.update reels dst (ldst.take d0 ++ seg ++ ldst.drop (d0 + sl)))
    else .ok reels

end Slot

deriving instance DecidableEq for Except

namespace Slot

/-! ## Window and grid (claim C2) -/

/-- C2: for every reel of length at least 1 and every in-range start,
`Reel.window` returns exactly the 3 symbols `symbols[(s+i) mod n]` for
`i = 0,1,2` (a list of length 3 whose `i`-th entry is that symbol), and
`SlotMachine.spin_grid` sets `grid[row][col]` to element `row` of reel
`col`'s window at its stop — the reel windows are the columns of the
row-major grid. -/
theorem C2_window_grid (m : SlotMachine) (stops : Fin 3 → ℕ)
    (hl : ∀ c : Fin 3, 0 < (m.reels c).length)
    (_hs : ∀ c : Fin 3, stops c < (m.reels c).length) :
    (∀ c : Fin 3, (window (m.reels c) (stops c)).length = 3) ∧
    (∀ c i : Fin 3, (window (m.reels c) (stops c)).getD i.val 0 =
      (m.reels c).get
        ⟨(stops c + i.val) % (m.reels c).length, Nat.mod_lt _ (hl c)⟩) ∧
    (∀ r c : Fin 3, spin_grid m stops r c =
      (window (m.reels c) (stops c)).getD r.val 0) := by
  refine ⟨fun c => by simp [window], fun c i => ?_, fun r c => rfl⟩
  fin_cases i <;>
    · show (m.reels c).getD _ 0 = _
      rw [List.getD_eq_getElem _ _ (Nat.mod_lt _ (hl c))]
      simp [List.get_eq_getElem]

/-- Witness for C2 on a concrete machine with reel lengths 3, 1, 2 and
stops (2, 0, 1). -/
theorem C2_window_grid_witness :
    (∀ c : Fin 3, 0 < ((⟨![[5, 6, 7], [1], [2, 3]], 1⟩ : SlotMachine).reels c).length) ∧
    (∀ c : Fin 3, (![2, 0, 1] : Fin 3 → ℕ) c <
      ((⟨![[5, 6, 7], [1], [2, 3]], 1⟩ : SlotMachine).reels c).length) ∧
    (∀ c : Fin 3,
      (window ((⟨![[5, 6, 7], [1], [2, 3]], 1⟩ : SlotMachine).reels c)
        ((![2, 0, 1] : Fin 3 → ℕ) c)).length = 3) ∧
    (∀ r c : Fin 3, spin_grid (⟨![[5, 6, 7], [1], [2, 3]], 1⟩ : SlotMachine) ![2, 0, 1] r c =
      (window ((⟨![[5, 6, 7], [1], [2, 3]], 1⟩ : SlotMachine).reels c)
        ((![2, 0, 1] : Fin 3 → ℕ) c)).getD r.val 0) :=
  ⟨by decide, by decide,
    (C2_window_grid _ ![2, 0, 1] (by decide) (by decide)).1,
    (C2_window_grid _ ![2, 0, 1] (by decide) (by decide)).2.2⟩

end Slot

namespace Slot

/-! ## Payout engine lemmas -/

lemma multiplier_none_iff (k : ℕ) : multiplier k = none ↔ 5 ≤ k := by
  rcases k with _ | _ | _ | _ | _ | n
  · simp [multiplier]
  · simp [multiplier]
  · simp [multiplier]
  · simp [multiplier]
  · simp [multiplier]
  · simp [multiplier]

lemma multiplier_isSome (k : ℕ) (h : k < 5) : ∃ m, multiplier k = some m := by
  cases hmul : multiplier k with
  | none => exact absurd ((multiplier_none_iff _).mp hmul) (by omega)
  | some m => exact ⟨m, rfl⟩

lemma patternPayout_eq_spec (bet : ℚ) (g : Grid) (p : Pattern)
    (h : firstSym g p < 5) :
    patternPayout bet g p = .ok (specContribution bet g p) := by
  unfold patternPayout specContribution
  cases hm : isMatch g p with
  | false => simp
  | true =>
    obtain ⟨m, hmul⟩ := multiplier_isSome (firstSym g p) h
    rw [hmul]
    simp

lemma payoutList_eq_sum (bet : ℚ) (g : Grid) :
    ∀ (ps : List Pattern) (acc : ℚ), (∀ p ∈ ps, firstSym g p < 5) →
      payoutList bet g ps acc = .ok (acc + (ps.map (specContribution bet g)).sum)
  | [], acc, _ => by simp [payoutList]
  | p :: ps, acc, h => by
    rw [payoutList, patternPayout_eq_spec bet g p (h p (by simp))]
    show payoutList bet g ps (acc + specContribution bet g p) = _
    rw [payoutList_eq_sum bet g ps (acc + specContribution bet g p)
      (fun q hq => h q (by simp [hq]))]
    simp [add_assoc]

lemma firstSym_lt_of_grid (g : Grid) (h : ∀ r c : Fin 3, g r c < 5) :
    ∀ p ∈ winning_patterns, firstSym g p < 5 := by
  intro p hp
  fin_cases hp <;> exact h _ _

lemma payoutE_eq_sum (bet : ℚ) (g : Grid) (h : ∀ r c : Fin 3, g r c < 5) :
    payoutE bet g = .ok ((winning_patterns.map (specContribution bet g)).sum) := by
  rw [payoutE, payoutList_eq_sum bet g winning_patterns 0 (firstSym_lt_of_grid g h)]
  rw [zero_add]

lemma payoutE_eq_ok_payoutD (bet : ℚ) (g : Grid) (h : ∀ r c : Fin 3, g r c < 5) :
    payoutE bet g = .ok (payoutD bet g) := by
  rw [payoutD, payoutE_eq_sum bet g h]

/-- C1: for every 3x3 grid over the five symbol keys and every bet amount,
`SlotMachine.payout` returns the sum over the five fixed patterns of
`bet_amount * multiplier(s) * weight` for each pattern all of whose cells
hold the symbol `s` of its first coordinate, matches contributing
independently and non-exclusively and non-matching patterns contributing
zero. -/
theorem C1_payout_sum (bet : ℚ) (g : Grid) (h : ∀ r c : Fin 3, g r c < 5) :
    payoutE bet g = .ok ((winning_patterns.map (specContribution bet g)).sum) :=
  payoutE_eq_sum bet g h

/-- Witness for C1 at a concrete grid: two patterns (top-left 2x2 and no
other) match on this grid, and the payout is the stated sum. -/
theorem C1_payout_sum_witness :
    (∀ r c : Fin 3, (![![1, 1, 0], ![1, 1, 2], ![3, 4, 2]] : Grid) r c < 5) ∧
    payoutE 2 ![![1, 1, 0], ![1, 1, 2], ![3, 4, 2]] =
      .ok ((winning_patterns.map
        (specContribution 2 ![![1, 1, 0], ![1, 1, 2], ![3, 4, 2]])).sum) :=
  ⟨by decide, C1_payout_sum 2 ![![1, 1, 0], ![1, 1, 2], ![3, 4, 2]] (by decide)⟩

/-- C4 counterexample: this grid holds the unknown symbol key 7 at cell
(2,2), yet `SlotMachine.payout` returns 0.0 normally instead of raising —
the `KeyError` lookup only happens for a matching pattern, and no pattern
matches here. -/
theorem C4_counterexample :
    (∃ r c : Fin 3, 5 ≤ (![![0, 1, 2], ![3, 4, 0], ![1, 2, 7]] : Grid) r c) ∧
    payoutE 1 ![![0, 1, 2], ![3, 4, 0], ![1, 2, 7]] = .ok 0 :=
  ⟨by decide, by with_unfolding_all rfl⟩

lemma payoutList_error_of_bad (bet : ℚ) (g : Grid) :
    ∀ (ps : List Pattern) (acc : ℚ),
      (∃ p ∈ ps, isMatch g p = true ∧ multiplier (firstSym g p) = none) →
      payoutList bet g ps acc = .error "KeyError"
  | [], _, h => by simp at h
  | p :: ps, acc, h => by
    by_cases hbad : isMatch g p = true ∧ multiplier (firstSym g p) = none
    · rw [payoutList, patternPayout, if_pos hbad.1, hbad.2]
    · have hrest : ∃ q ∈ ps, isMatch g q = true ∧ multiplier (firstSym g q) = none := by
        rcases h with ⟨q, hq, hGood⟩
        rcases List.mem_cons.mp hq with hq1 | hq2
        · exact absurd (hq1 ▸ hGood) hbad
        · exact ⟨q, hq2, hGood⟩
      rw [payoutList]
      cases hpp : patternPayout bet g p with
      | ok v => exact payoutList_error_of_bad bet g ps (acc + v) hrest
      | error e =>
        rw [patternPayout] at hpp
        by_cases hm : isMatch g p = true
        · rw [if_pos hm] at hpp
          cases hmul : multiplier (firstSym g p) with
          | some m => rw [hmul] at hpp; cases hpp
          | none => exact absurd ⟨hm, hmul⟩ hbad
        · rw [if_neg hm] at hpp; cases hpp

lemma payoutList_ok_of_good (bet : ℚ) (g : Grid) :
    ∀ (ps : List Pattern) (acc : ℚ),
      (∀ p ∈ ps, ¬(isMatch g p = true ∧ multiplier (firstSym g p) = none)) →
      ∃ q, payoutList bet g ps acc = .ok q
  | [], acc, _ => ⟨acc, rfl⟩
  | p :: ps, acc, h => by
    have hgood := h p (by simp)
    rw [payoutList]
    cases hpp : patternPayout bet g p with
    | ok v => exact payoutList_ok_of_good bet g ps (acc + v) fun q hq => h q (by simp [hq])
    | error e =>
      rw [patternPayout] at hpp
      by_cases hm : isMatch g p = true
      · rw [if_pos hm] at hpp
        cases hmul : multiplier (firstSym g p) with
        | some m => rw [hmul] at hpp; cases hpp
        | none => exact absurd ⟨hm, hmul⟩ hgood
      · rw [if_neg hm] at hpp; cases hpp

/-- C4 amended: `SlotMachine.payout` raises `KeyError` exactly when some
pattern matches with its first-coordinate symbol outside the fixed 5-symbol
table (so an all-unknown grid raises, but a grid whose unknown key is not
part of any fully-matching pattern is scored silently — see the
counterexample). -/
theorem C4_keyerror_iff_matching_unknown (bet : ℚ) (g : Grid) :
    payoutE bet g = .error "KeyError" ↔
      ∃ p ∈ winning_patterns, isMatch g p = true ∧ 5 ≤ firstSym g p := by
  constructor
  · intro he
    by_contra hno
    push_neg at hno
    have hgood : ∀ p ∈ winning_patterns,
        ¬(isMatch g p = true ∧ multiplier (firstSym g p) = none) := by
      intro p hp ⟨hm, hmul⟩
      exact absurd ((multiplier_none_iff _).mp hmul) (by
        have := hno p hp hm
        omega)
    obtain ⟨q, hq⟩ := payoutList_ok_of_good bet g winning_patterns 0 hgood
    rw [payoutE, hq] at he
    cases he
  · intro ⟨p, hp, hm, hk⟩
    exact payoutList_error_of_bad bet g winning_patterns 0
      ⟨p, hp, hm, (multiplier_none_iff _).mpr hk⟩

/-! ## Error propagation in the evaluators (claims C10, C4) -/

lemma patternPayout_error_eq (bet : ℚ) (g : Grid) (p : Pattern) (e : String) :
    patternPayout bet g p = .error e → e = "KeyError" := by
  rw [patternPayout]
  intro h
  split at h
  · split at h
    · cases h
    · cases h; rfl
  · cases h

lemma payoutList_error_eq (bet : ℚ) (g : Grid) :
    ∀ (ps : List Pattern) (acc : ℚ) (e : String),
      payoutList bet g ps acc = .error e → e = "KeyError"
  | [], _, e => by intro h; cases h
  | p :: ps, acc, e => by
    intro h
    rw [payoutList] at h
    split at h
    · exact payoutList_error_eq bet g ps _ e h
    · rename_i e2 he2
      cases h
      exact patternPayout_error_eq bet g p _ he2

lemma payoutE_error_eq (bet : ℚ) (g : Grid) (e : String) :
    payoutE bet g = .error e → e = "KeyError" :=
  payoutList_error_eq bet g winning_patterns 0 e

lemma exactLoop_error_eq (m : SlotMachine) :
    ∀ (l : List (ℕ × ℕ × ℕ)) (w : ℕ) (t : ℚ) (e : String),
      exactLoop m l w t = .error e → e = "KeyError"
  | [], _, _, e => by intro h; cases h
  | s :: l, w, t, e => by
    intro h
    rw [exactLoop] at h
    split at h
    · exact exactLoop_error_eq m l _ _ e h
    · rename_i e2 he2
      cases h
      exact payoutE_error_eq _ _ _ he2

lemma exactRun_error_eq (m : SlotMachine) (e : String) :
    exactRun m = .error e → e = "KeyError" := by
  intro h
  simp only [exactRun] at h
  split at h
  · rename_i e2 he2
    cases h
    exact exactLoop_error_eq m _ _ _ _ he2
  · cases h

lemma simLoop_wins_le {G : Type} (next : G → ℕ × G) (m : SlotMachine) :
    ∀ (n : ℕ) (g : G) (w : ℕ) (t : ℚ) (w2 : ℕ) (t2 : ℚ) (g2 : G),
      simLoop next m n g w t = .ok (w2, t2, g2) → w2 ≤ w + n
  | 0, g, w, t, w2, t2, g2 => by
    intro h
    simp [simLoop] at h
    omega
  | n + 1, g, w, t, w2, t2, g2 => by
    intro h
    rw [simLoop] at h
    split at h
    · cases h
    · split at h
      · cases h
      · split at h
        · cases h
        · split at h
          · cases h
          · rename_i p hp
            have hrec := simLoop_wins_le next m n _ _ _ _ _ _ h
            have hite : (if 0 < p then 1 else 0) ≤ 1 := by split <;> omega
            omega

/-- C10: `Simulator.run` computes `win_rate = wins / spins` with no zero
guard, so at `spins = 0` it fails with `ZeroDivisionError`; for `spins ≥ 1`
(when the spin loop returns normally) it returns a result whose `win_rate`
is `wins / spins` and lies in `[0, 1]` since `wins ≤ spins`.  In contrast,
`ExactEvaluator.run` guards both of its divisions: its only possible error
is the `KeyError` of an unknown symbol, never `ZeroDivisionError`, and with
an empty reel (zero combinations) it returns zero metrics normally. -/
theorem C10_unguarded_win_rate_division {G : Type} (next : G → ℕ × G)
    (m : SlotMachine) (g : G) :
    (simRun next m g 0 = .error "ZeroDivisionError") ∧
    (∀ (spins wins : ℕ) (tr : ℚ) (g2 : G), 1 ≤ spins →
      simLoop next m spins g 0 0 = .ok (wins, tr, g2) →
      ∃ r, simRun next m g spins = .ok r ∧
        r.win_rate = (wins : ℚ) / (spins : ℚ) ∧
        0 ≤ r.win_rate ∧ r.win_rate ≤ 1) ∧
    (∀ (m2 : SlotMachine) (e : String), exactRun m2 = .error e → e = "KeyError") ∧
    exactRun ⟨![[], [], []], 1⟩ = .ok ⟨0, 0, 0, 0, 0⟩ := by
  refine ⟨?_, ?_, fun m2 e => exactRun_error_eq m2 e, by with_unfolding_all rfl⟩
  · simp [simRun, simLoop, pydiv]
  · intro spins wins tr g2 hs hloop
    have hw : wins ≤ spins := by
      have := simLoop_wins_le next m spins g 0 0 wins tr g2 hloop
      omega
    have hcast : ((spins : ℚ)) ≠ 0 := by
      exact_mod_cast Nat.pos_iff_ne_zero.mp hs
    refine ⟨⟨spins, (spins : ℚ) * m.bet_amount, tr, (wins : ℚ) / (spins : ℚ),
      if 0 < (spins : ℚ) * m.bet_amount then tr / ((spins : ℚ) * m.bet_amount) else 0⟩,
      ?_, rfl, by positivity, ?_⟩
    · simp only [simRun, hloop, pydiv, if_neg hcast]
    · rw [div_le_one (by positivity)]
      exact_mod_cast hw

/-- Witness for C10 at a concrete machine and generator: two spins of the
all-2s machine yield two wins, total return 18, and win rate 1. -/
theorem C10_unguarded_win_rate_division_witness :
    (1 ≤ 2) ∧
    simLoop (fun g : ℕ => (g, g + 1)) ⟨![[2], [2], [2]], 1⟩ 2 0 0 0 = .ok (2, 18, 6) ∧
    ∃ r, simRun (fun g : ℕ => (g, g + 1)) ⟨![[2], [2], [2]], 1⟩ 0 2 = .ok r ∧
      r.win_rate = ((2 : ℕ) : ℚ) / ((2 : ℕ) : ℚ) ∧ 0 ≤ r.win_rate ∧ r.win_rate ≤ 1 :=
  ⟨by norm_num, by with_unfolding_all rfl,
    (C10_unguarded_win_rate_division (fun g : ℕ => (g, g + 1))
      ⟨![[2], [2], [2]], 1⟩ 0).2.1 2 2 18 6 (by norm_num) (by with_unfolding_all rfl)⟩

/-- C7: the simulator's randomness comes only from its own per-instance
seeded generator, so `Simulator.run` is a deterministic function of the
reels, the bet amount, the seed and the spin count: two instances built
with the same seed over the same machine data return identical metrics. -/
theorem C7_sim_deterministic {G : Type} (next : G → ℕ × G) (seedInit : ℕ → G)
    (seed : ℕ) (m1 m2 : SlotMachine) (N : ℕ)
    (hr : m1.reels = m2.reels) (hb : m1.bet_amount = m2.bet_amount) :
    simRun next m1 (seedInit seed) N = simRun next m2 (seedInit seed) N := by
  obtain ⟨r1, b1⟩ := m1
  obtain ⟨r2, b2⟩ := m2
  simp only at hr hb
  subst hr
  subst hb
  rfl

/-- Witness for C7 with a concrete generator, seed and machine. -/
theorem C7_sim_deterministic_witness :
    ((⟨![[2], [4], [2, 3]], 1⟩ : SlotMachine).reels = (⟨![[2], [4], [2, 3]], 1⟩ : SlotMachine).reels) ∧
    ((⟨![[2], [4], [2, 3]], 1⟩ : SlotMachine).bet_amount = (⟨![[2], [4], [2, 3]], 1⟩ : SlotMachine).bet_amount) ∧
    simRun (fun g : ℕ => (g * 5 + 1, g + 1)) ⟨![[2], [4], [2, 3]], 1⟩ (id 7) 3 =
      simRun (fun g : ℕ => (g * 5 + 1, g + 1)) ⟨![[2], [4], [2, 3]], 1⟩ (id 7) 3 :=
  ⟨rfl, rfl, C7_sim_deterministic (fun g : ℕ => (g * 5 + 1, g + 1)) id 7 _ _ 3 rfl rfl⟩

/-- C8: the machine with reels `[[2],[2],[2]]` and bet 1.0 has the single
stop combination `(0,0,0)`, its grid is all 2s, all five patterns match with
multiplier 1.0, the payout of the grid is 9.0, and `ExactEvaluator.run`
reports `spins=1, total_bet=1, total_return=9, win_rate=1, rtp=9`. -/
theorem C8_all_twos_scenario :
    allStops 1 1 1 = [(0, 0, 0)] ∧
    (∀ r c : Fin 3, spin_grid ⟨![[2], [2], [2]], 1⟩ ![0, 0, 0] r c = 2) ∧
    (∀ p ∈ winning_patterns,
      isMatch (spin_grid ⟨![[2], [2], [2]], 1⟩ ![0, 0, 0]) p = true ∧
      multiplier (firstSym (spin_grid ⟨![[2], [2], [2]], 1⟩ ![0, 0, 0]) p) = some 1) ∧
    payoutE 1 (spin_grid ⟨![[2], [2], [2]], 1⟩ ![0, 0, 0]) = .ok 9 ∧
    exactRun ⟨![[2], [2], [2]], 1⟩ = .ok ⟨1, 1, 9, 1, 9⟩ :=
  ⟨by decide, by decide, by decide, by with_unfolding_all rfl, by with_unfolding_all rfl⟩

/-! ## Early stop (claim C6) -/

/-- C6: in any iteration of the search loop (arbitrary remaining steps and
arbitrary loop state, so in particular whatever best-loss candidate has been
tracked and whether or not the Metropolis draw accepts), under the default
targets `target_rtp = 0.95` and `min_win_rate = 0.55`, if the step's freshly
evaluated sample has `|rtp - target_rtp| < 0.01` and
`win_rate ≥ min_win_rate` then the search immediately returns that step's
proposal with that sample, overriding the tracked best. -/
theorem C6_early_stop_overrides_best (cfg : SearchConfig)
    (P : ℕ → ReelTriple → ReelTriple) (E : ℕ → ReelTriple → SimulationResult)
    (M : ℕ → Bool) (k : ℕ) (rest : List ℕ) (st : SearchState)
    (ht : cfg.target_rtp = 19/20) (_hw : cfg.min_win_rate = 11/20)
    (hr : |(E k (P k st.current)).rtp - cfg.target_rtp| < 1/100)
    (hwr : cfg.min_win_rate ≤ (E k (P k st.current)).win_rate) :
    runSteps cfg P E M (k :: rest) st = ⟨P k st.current, E k (P k st.current)⟩ := by
  have hne : (E k (P k st.current)).rtp ≠ 0 := by
    have h2 := abs_lt.mp hr
    rw [ht] at h2
    intro h0
    rw [h0] at h2
    norm_num at h2
  have hr2 : |(E k (P k st.current)).rtp - cfg.target_rtp| < (100 : ℚ)⁻¹ := by
    rw [← one_div]
    exact hr
  have hE : earlyCond cfg (E k (P k st.current)) = true := by
    simp [earlyCond, hne, hr2, hwr]
  simp [runSteps, hE]

/-- Concrete search configuration with the default targets, for the C6
witness. -/
def C6cfg : SearchConfig := ⟨19/20, 11/20, 5, 10, some 0⟩

/-- Concrete sample meeting the early-stop condition, for the C6 witness. -/
def C6res : SimulationResult := ⟨10, 10, 9, 3/5, 19/20⟩

/-- Concrete loop state whose tracked best differs from the early-stop
candidate, for the C6 witness. -/
def C6st : SearchState :=
  ⟨fun _ => [2, 2], ⟨10, 10, 0, 0, 0⟩, 0, ⟨fun _ => [3, 3], ⟨10, 10, 0, 0, 0⟩⟩, 0, 1⟩

/-- Witness for C6: a step whose sample has rtp exactly 0.95 and win rate
0.6 makes the loop return that proposal and sample at once. -/
theorem C6_early_stop_overrides_best_witness :
    C6cfg.target_rtp = 19/20 ∧ C6cfg.min_win_rate = 11/20 ∧
    |((fun (_ : ℕ) (_ : ReelTriple) => C6res) 0
        ((fun (_ : ℕ) (r : ReelTriple) => r) 0 C6st.current)).rtp - C6cfg.target_rtp| < 1/100 ∧
    C6cfg.min_win_rate ≤ ((fun (_ : ℕ) (_ : ReelTriple) => C6res) 0
        ((fun (_ : ℕ) (r : ReelTriple) => r) 0 C6st.current)).win_rate ∧
    runSteps C6cfg (fun _ r => r) (fun _ _ => C6res) (fun _ => false) [0] C6st =
      ⟨C6st.current, C6res⟩ :=
  ⟨rfl, rfl, by norm_num [C6res, C6cfg], by norm_num [C6res, C6cfg],
    C6_early_stop_overrides_best C6cfg (fun _ r => r) (fun _ _ => C6res)
      (fun _ => false) 0 [] C6st rfl rfl
      (by norm_num [C6res, C6cfg]) (by norm_num [C6res, C6cfg])⟩

/-! ## Search loop termination and best tracking (claim C5) -/

lemma runSteps_min (cfg : SearchConfig) (P : ℕ → ReelTriple → ReelTriple)
    (E : ℕ → ReelTriple → SimulationResult) (M : ℕ → Bool) :
    ∀ (steps : List ℕ) (st : SearchState) (acc : List Candidate),
      acceptedTrace cfg P E M steps st.current st.current_loss = some acc →
      st.best_loss = loss cfg st.best.result →
      ((runSteps cfg P E M steps st = st.best ∨ runSteps cfg P E M steps st ∈ acc) ∧
       loss cfg (runSteps cfg P E M steps st).result ≤ st.best_loss ∧
       ∀ c ∈ acc, loss cfg (runSteps cfg P E M steps st).result ≤ loss cfg c.result)
  | [], st, acc => by
    intro htr hb
    rw [acceptedTrace] at htr
    injection htr with he
    subst he
    rw [runSteps]
    refine ⟨Or.inl rfl, ?_, fun c hc => absurd hc (List.not_mem_nil c)⟩
    rw [hb]
  | k :: rest, st, acc => by
    intro htr hb
    simp only [acceptedTrace] at htr
    simp only [runSteps]
    by_cases hE : earlyCond cfg (E k (P k st.current)) = true
    · rw [if_pos hE] at htr; cases htr
    · rw [if_neg hE] at htr
      rw [if_neg hE]
      by_cases hA : (decide (loss cfg (E k (P k st.current)) < st.current_loss) || M k) = true
      · rw [if_pos hA] at htr
        rw [if_pos hA]
        obtain ⟨acc2, htr2, hacc⟩ := Option.map_eq_some'.mp htr
        subst hacc
        by_cases hlb : loss cfg (E k (P k st.current)) < st.best_loss
        · rw [if_pos hlb, if_pos hlb]
          have IH := runSteps_min cfg P E M rest
            ⟨P k st.current, E k (P k st.current), loss cfg (E k (P k st.current)),
              ⟨P k st.current, E k (P k st.current)⟩, loss cfg (E k (P k st.current)),
              st.temperature * (98/100)⟩ acc2 htr2 rfl
          refine ⟨?_, le_trans IH.2.1 (le_of_lt hlb), ?_⟩
          · rcases IH.1 with hbest | hmem
            · exact Or.inr (hbest ▸ List.mem_cons_self _ _)
            · exact Or.inr (List.mem_cons_of_mem _ hmem)
          · intro c hc
            rcases List.mem_cons.mp hc with hc1 | hc2
            · rw [hc1]
              exact IH.2.1
            · exact IH.2.2 c hc2
        · rw [if_neg hlb, if_neg hlb]
          have IH := runSteps_min cfg P E M rest
            ⟨P k st.current, E k (P k st.current), loss cfg (E k (P k st.current)),
              st.best, st.best_loss, st.temperature * (98/100)⟩ acc2 htr2 hb
          refine ⟨?_, IH.2.1, ?_⟩
          · rcases IH.1 with hbest | hmem
            · exact Or.inl hbest
            · exact Or.inr (List.mem_cons_of_mem _ hmem)
          · intro c hc
            rcases List.mem_cons.mp hc with hc1 | hc2
            · rw [hc1]
              exact le_trans IH.2.1 (not_lt.mp hlb)
            · exact IH.2.2 c hc2
      · rw [if_neg hA] at htr
        rw [if_neg hA]
        exact runSteps_min cfg P E M rest
          ⟨st.current, st.current_res, st.current_loss, st.best, st.best_loss,
            st.temperature * (98/100)⟩ acc htr hb

lemma stepCount_eq_length (cfg : SearchConfig) (P : ℕ → ReelTriple → ReelTriple)
    (E : ℕ → ReelTriple → SimulationResult) (M : ℕ → Bool) :
    ∀ (steps : List ℕ) (cur : ReelTriple) (cl : ℚ) (acc : List Candidate),
      acceptedTrace cfg P E M steps cur cl = some acc →
      stepCount cfg P E M steps cur cl = steps.length
  | [], cur, cl, acc => fun _ => rfl
  | k :: rest, cur, cl, acc => by
    intro htr
    simp only [acceptedTrace] at htr
    simp only [stepCount]
    by_cases hE : earlyCond cfg (E k (P k cur)) = true
    · rw [if_pos hE] at htr; cases htr
    · rw [if_neg hE] at htr
      rw [if_neg hE]
      by_cases hA : (decide (loss cfg (E k (P k cur)) < cl) || M k) = true
      · rw [if_pos hA] at htr
        rw [if_pos hA]
        obtain ⟨acc2, htr2, _⟩ := Option.map_eq_some'.mp htr
        rw [stepCount_eq_length cfg P E M rest (P k cur) (loss cfg (E k (P k cur))) acc2 htr2]
        simp [Nat.add_comm]
      · rw [if_neg hA] at htr
        rw [if_neg hA]
        rw [stepCount_eq_length cfg P E M rest cur cl acc htr]
        simp [Nat.add_comm]

/-- C5: when no step fires the early-stop condition (the accepted-proposal
trace is defined), `ReelSearch.search` executes exactly `max_steps`
iterations and returns a candidate drawn from the initial candidate and the
accepted proposals whose loss is minimal among all of them (the current
state at exit has no special status); in particular with `max_steps = 0` it
returns exactly the initial candidate with its initial evaluation. -/
theorem C5_search_runs_max_steps_returns_best (cfg : SearchConfig)
    (P : ℕ → ReelTriple → ReelTriple) (E : ℕ → ReelTriple → SimulationResult)
    (M : ℕ → Bool) (initReels : ReelTriple) (initRes : SimulationResult)
    (acc : List Candidate)
    (h : acceptedTrace cfg P E M (List.range cfg.max_steps) initReels
      (loss cfg initRes) = some acc) :
    stepCount cfg P E M (List.range cfg.max_steps) initReels (loss cfg initRes)
        = cfg.max_steps ∧
    (search cfg initReels initRes P E M = ⟨initReels, initRes⟩ ∨
      search cfg initReels initRes P E M ∈ acc) ∧
    loss cfg (search cfg initReels initRes P E M).result ≤ loss cfg initRes ∧
    (∀ c ∈ acc, loss cfg (search cfg initReels initRes P E M).result ≤ loss cfg c.result) ∧
    (cfg.max_steps = 0 → search cfg initReels initRes P E M = ⟨initReels, initRes⟩) := by
  have hmin := runSteps_min cfg P E M (List.range cfg.max_steps)
    ⟨initReels, initRes, loss cfg initRes, ⟨initReels, initRes⟩, loss cfg initRes, 1⟩ acc h rfl
  have hcount := stepCount_eq_length cfg P E M (List.range cfg.max_steps) initReels
    (loss cfg initRes) acc h
  refine ⟨by rw [hcount, List.length_range], hmin.1, hmin.2.1, hmin.2.2, fun h0 => ?_⟩
  rw [search, h0]
  rfl

/-- Concrete zero-step configuration for the C5 witness. -/
def C5cfg : SearchConfig := ⟨19/20, 11/20, 0, 10, some 0⟩

/-- Concrete initial evaluation for the C5 witness. -/
def C5res : SimulationResult := ⟨0, 0, 0, 0, 0⟩

/-- Witness for C5 with `max_steps = 0`: the trace is empty and the search
returns the initial candidate unchanged. -/
theorem C5_search_runs_max_steps_returns_best_witness :
    acceptedTrace C5cfg (fun _ r => r) (fun _ _ => C5res) (fun _ => false)
      (List.range C5cfg.max_steps) (fun _ => [2]) (loss C5cfg C5res) = some [] ∧
    (stepCount C5cfg (fun _ r => r) (fun _ _ => C5res) (fun _ => false)
        (List.range C5cfg.max_steps) (fun _ => [2]) (loss C5cfg C5res) = C5cfg.max_steps ∧
      (search C5cfg (fun _ => [2]) C5res (fun _ r => r) (fun _ _ => C5res) (fun _ => false)
          = ⟨fun _ => [2], C5res⟩ ∨
        search C5cfg (fun _ => [2]) C5res (fun _ r => r) (fun _ _ => C5res) (fun _ => false)
          ∈ ([] : List Candidate)) ∧
      loss C5cfg (search C5cfg (fun _ => [2]) C5res (fun _ r => r) (fun _ _ => C5res)
          (fun _ => false)).result ≤ loss C5cfg C5res ∧
      (∀ c ∈ ([] : List Candidate),
        loss C5cfg (search C5cfg (fun _ => [2]) C5res (fun _ r => r) (fun _ _ => C5res)
          (fun _ => false)).result ≤ loss C5cfg c.result) ∧
      (C5cfg.max_steps = 0 →
        search C5cfg (fun _ => [2]) C5res (fun _ r => r) (fun _ _ => C5res) (fun _ => false)
          = ⟨fun _ => [2], C5res⟩)) :=
  ⟨rfl, C5_search_runs_max_steps_returns_best C5cfg (fun _ r => r) (fun _ _ => C5res)
    (fun _ => false) (fun _ => [2]) C5res [] rfl⟩

/-! ## Exact evaluator (claim C3) -/

lemma sum_map_const_range (n c : ℕ) : ((List.range n).map fun _ => c).sum = n * c := by
  rw [List.map_const', List.sum_replicate, List.length_range, smul_eq_mul]

lemma length_allStops (L0 L1 L2 : ℕ) :
    (allStops L0 L1 L2).length = L0 * L1 * L2 := by
  rw [allStops, List.length_flatMap]
  simp only [Function.comp_def]
  have h1 : ∀ i : ℕ,
      ((List.range L1).flatMap fun j => (List.range L2).map fun k => (i, j, k)).length
        = L1 * L2 := by
    intro i
    rw [List.length_flatMap]
    simp only [Function.comp_def, List.length_map, List.length_range]
    rw [sum_map_const_range]
  simp only [h1]
  rw [sum_map_const_range, mul_assoc]

lemma mem_allStops (L0 L1 L2 i j k : ℕ) :
    (i, j, k) ∈ allStops L0 L1 L2 ↔ i < L0 ∧ j < L1 ∧ k < L2 := by
  simp [allStops, List.mem_flatMap, List.mem_map, List.mem_range, Prod.ext_iff]
  aesop

lemma spin_grid_mem (m : SlotMachine) (stops : Fin 3 → ℕ) (r c : Fin 3)
    (h : 0 < (m.reels c).length) : spin_grid m stops r c ∈ m.reels c := by
  fin_cases r <;>
    · show (m.reels c).getD _ 0 ∈ m.reels c
      rw [List.getD_eq_getElem _ _ (Nat.mod_lt _ h)]
      exact List.getElem_mem _

lemma exactLoop_ok (m : SlotMachine) :
    ∀ (l : List (ℕ × ℕ × ℕ)) (w : ℕ) (t : ℚ),
      (∀ s ∈ l, ∀ r c : Fin 3, spin_grid m ![s.1, s.2.1, s.2.2] r c < 5) →
      exactLoop m l w t = .ok
        (w + (l.filter fun s =>
          decide (0 < payoutD m.bet_amount (spin_grid m ![s.1, s.2.1, s.2.2]))).length,
         t + (l.map fun s =>
          payoutD m.bet_amount (spin_grid m ![s.1, s.2.1, s.2.2])).sum)
  | [], w, t => by
    intro h
    simp [exactLoop]
  | s :: l, w, t => by
    intro h
    rw [exactLoop, payoutE_eq_ok_payoutD _ _ (h s (by simp))]
    show exactLoop m l
      (w + if 0 < payoutD m.bet_amount (spin_grid m ![s.1, s.2.1, s.2.2]) then 1 else 0)
      (t + payoutD m.bet_amount (spin_grid m ![s.1, s.2.1, s.2.2])) = _
    rw [exactLoop_ok m l _ _ (fun q hq => h q (by simp [hq]))]
    by_cases h0 : 0 < payoutD m.bet_amount (spin_grid m ![s.1, s.2.1, s.2.2])
    · simp [List.filter_cons, h0, add_assoc]
      omega
    · simp [List.filter_cons, h0, add_assoc]

/-- C3: for reels of positive lengths over the symbol table and a positive
bet, `ExactEvaluator.run` visits the `L0*L1*L2` stop combinations exactly
once (the enumeration list has that length and holds exactly the in-range
triples) and returns `spins = L0*L1*L2`, `total_bet = spins * bet`,
`total_return` the sum of the payouts of all combinations,
`win_rate = (count of combinations with payout > 0) / (L0*L1*L2)` and
`rtp = total_return / total_bet`. -/
theorem C3_exact_run_metrics (m : SlotMachine)
    (hl : ∀ c : Fin 3, 0 < (m.reels c).length)
    (hsym : ∀ c : Fin 3, ∀ x ∈ m.reels c, x < 5)
    (hb : 0 < m.bet_amount) :
    (allStops (m.reels 0).length (m.reels 1).length (m.reels 2).length).length
        = (m.reels 0).length * (m.reels 1).length * (m.reels 2).length ∧
    (∀ i j k : ℕ,
      (i, j, k) ∈ allStops (m.reels 0).length (m.reels 1).length (m.reels 2).length ↔
        i < (m.reels 0).length ∧ j < (m.reels 1).length ∧ k < (m.reels 2).length) ∧
    exactRun m = .ok
      ⟨(m.reels 0).length * (m.reels 1).length * (m.reels 2).length,
       (((m.reels 0).length * (m.reels 1).length * (m.reels 2).length : ℕ) : ℚ)
          * m.bet_amount,
       ((allStops (m.reels 0).length (m.reels 1).length (m.reels 2).length).map fun s =>
          payoutD m.bet_amount (spin_grid m ![s.1, s.2.1, s.2.2])).sum,
       ((((allStops (m.reels 0).length (m.reels 1).length (m.reels 2).length).filter fun s =>
          decide (0 < payoutD m.bet_amount (spin_grid m ![s.1, s.2.1, s.2.2]))).length : ℕ) : ℚ)
          / (((m.reels 0).length * (m.reels 1).length * (m.reels 2).length : ℕ) : ℚ),
       ((allStops (m.reels 0).length (m.reels 1).length (m.reels 2).length).map fun s =>
          payoutD m.bet_amount (spin_grid m ![s.1, s.2.1, s.2.2])).sum
        / ((((m.reels 0).length * (m.reels 1).length * (m.reels 2).length : ℕ) : ℚ)
          * m.bet_amount)⟩ := by
  have hcell : ∀ s ∈ allStops (m.reels 0).length (m.reels 1).length (m.reels 2).length,
      ∀ r c : Fin 3, spin_grid m ![s.1, s.2.1, s.2.2] r c < 5 :=
    fun s _ r c => hsym c _ (spin_grid_mem m _ r c (hl c))
  have hloop := exactLoop_ok m
    (allStops (m.reels 0).length (m.reels 1).length (m.reels 2).length) 0 0 hcell
  have hpos : 0 < (m.reels 0).length * (m.reels 1).length * (m.reels 2).length :=
    Nat.mul_pos (Nat.mul_pos (hl 0) (hl 1)) (hl 2)
  have htb : 0 < (((m.reels 0).length * (m.reels 1).length * (m.reels 2).length : ℕ) : ℚ)
      * m.bet_amount :=
    mul_pos (by exact_mod_cast hpos) hb
  refine ⟨length_allStops _ _ _, fun i j k => mem_allStops _ _ _ i j k, ?_⟩
  simp only [exactRun, hloop, zero_add, hpos, htb, if_true, if_pos]

/-- Concrete machine with reel lengths 2, 1, 1 and bet 2, for the C3
witness. -/
def C3m : SlotMachine := ⟨![[2, 0], [2], [2]], 2⟩

/-- Witness for C3 at a concrete machine: two combinations, evaluated
metrics as the theorem states them. -/
theorem C3_exact_run_metrics_witness :
    (∀ c : Fin 3, 0 < (C3m.reels c).length) ∧
    (∀ c : Fin 3, ∀ x ∈ C3m.reels c, x < 5) ∧
    0 < C3m.bet_amount ∧
    ((allStops (C3m.reels 0).length (C3m.reels 1).length (C3m.reels 2).length).length
        = (C3m.reels 0).length * (C3m.reels 1).length * (C3m.reels 2).length ∧
    (∀ i j k : ℕ,
      (i, j, k) ∈ allStops (C3m.reels 0).length (C3m.reels 1).length (C3m.reels 2).length ↔
        i < (C3m.reels 0).length ∧ j < (C3m.reels 1).length ∧ k < (C3m.reels 2).length) ∧
    exactRun C3m = .ok
      ⟨(C3m.reels 0).length * (C3m.reels 1).length * (C3m.reels 2).length,
       (((C3m.reels 0).length * (C3m.reels 1).length * (C3m.reels 2).length : ℕ) : ℚ)
          * C3m.bet_amount,
       ((allStops (C3m.reels 0).length (C3m.reels 1).length (C3m.reels 2).length).map fun s =>
          payoutD C3m.bet_amount (spin_grid C3m ![s.1, s.2.1, s.2.2])).sum,
       ((((allStops (C3m.reels 0).length (C3m.reels 1).length (C3m.reels 2).length).filter fun s =>
          decide (0 < payoutD C3m.bet_amount (spin_grid C3m ![s.1, s.2.1, s.2.2]))).length : ℕ) : ℚ)
          / (((C3m.reels 0).length * (C3m.reels 1).length * (C3m.reels 2).length : ℕ) : ℚ),
       ((allStops (C3m.reels 0).length (C3m.reels 1).length (C3m.reels 2).length).map fun s =>
          payoutD C3m.bet_amount (spin_grid C3m ![s.1, s.2.1, s.2.2])).sum
        / ((((C3m.reels 0).length * (C3m.reels 1).length * (C3m.reels 2).length : ℕ) : ℚ)
          * C3m.bet_amount)⟩) :=
  ⟨by decide, by decide, by norm_num [C3m],
    C3_exact_run_metrics C3m (by decide) (by decide) (by norm_num [C3m])⟩

/-! ## Mutation length preservation (claim C9) -/

lemma update_length (reels : ReelTriple) (i : Fin 3) (l2 : List ℕ)
    (h : l2.length = (reels i).length) (j : Fin 3) :
    ((Function.update reels i l2) j).length = (reels j).length := by
  by_cases hj : j = i
  · subst hj
    simp [h]
  · simp [Function.update_noteq hj]

lemma foldl_set_length (val : ℕ) (f : ℕ → ℕ) :
    ∀ (xs : List ℕ) (acc : List ℕ),
      (xs.foldl (fun a o => a.set (f o) val) acc).length = acc.length
  | [], _ => rfl
  | x :: xs, acc => by
    rw [List.foldl_cons, foldl_set_length val f xs _, List.length_set]

lemma strengthenList_length (l : List ℕ) (start run val : ℕ) :
    (strengthenList l start run val).length = l.length := by
  rw [strengthenList]
  exact foldl_set_length val (fun o => (start + (o + 1)) % l.length) (List.range (run - 1)) l

lemma mutate_ok_length (d : MutDraws) (reels : ReelTriple) (t : ReelTriple)
    (h : mutate d reels = .ok t) : ∀ j : Fin 3, (t j).length = (reels j).length := by
  intro j
  simp only [mutate] at h
  split at h
  · -- swap
    split at h
    · injection h with ht
      subst ht
      exact update_length reels _ _ (by rw [List.length_set, List.length_set]) j
    · injection h with ht
      subst ht
      rfl
  · split at h
    · -- tweak
      split at h
      · cases h
      · rename_i j2 hj2
        injection h with ht
        subst ht
        exact update_length reels _ _ (List.length_set _ _ _) j
    · split at h
      · -- rotate
        split at h
        · cases h
        · rename_i k hk
          injection h with ht
          subst ht
          have hkb : k ≤ (reels (idx3 d.r1)).length ∧ 1 ≤ (reels (idx3 d.r1)).length := by
            rw [pyrandrange2] at hk
            split at hk
            · cases hk
            · rename_i hcond
              injection hk with hk2
              have hm := Nat.mod_lt d.r2 (show 0 < (reels (idx3 d.r1)).length - 1 by omega)
              omega
          refine update_length reels _ _ ?_ j
          rw [List.length_append, List.length_drop, List.length_take]
          omega
      · split at h
        · -- strengthen
          split at h
          · cases h
          · rename_i start hstart
            split at h
            · cases h
            · rename_i run hrun
              injection h with ht
              subst ht
              exact update_length reels _ _ (strengthenList_length _ _ _ _) j
        · -- slice copy
          split at h
          · split at h
            · cases h
            · rename_i sl hsl
              split at h
              · cases h
              · rename_i s0 hs0
                split at h
                · cases h
                · rename_i d0 hd0
                  injection h with ht
                  subst ht
                  rename_i hguard
                  have hslb : 2 ≤ sl ∧ sl ≤ min 6 (reels (idx3 d.r1)).length := by
                    rw [pyrandint] at hsl
                    split at hsl
                    · cases hsl
                    · rename_i hc
                      injection hsl with hsl2
                      have hm := Nat.mod_lt d.r3
                        (show 0 < min 6 (reels (idx3 d.r1)).length - 2 + 1 by omega)
                      omega
                  have hs0b : s0 + sl ≤ (reels (idx3 d.r1)).length := by
                    rw [pyrandrangeZ] at hs0
                    split at hs0
                    · cases hs0
                    · rename_i hc
                      injection hs0 with hs02
                      have hm := Nat.mod_lt d.r4 (show 0 <
                        (((reels (idx3 d.r1)).length : ℤ) - (sl : ℤ) + 1).toNat by omega)
                      omega
                  have hd0b : d0 + sl ≤ (reels (idx3 d.r2)).length := by
                    rw [pyrandrangeZ] at hd0
                    split at hd0
                    · cases hd0
                    · rename_i hc
                      injection hd0 with hd02
                      have hm := Nat.mod_lt d.r5 (show 0 <
                        (((reels (idx3 d.r2)).length : ℤ) - (sl : ℤ) + 1).toNat by omega)
                      omega
                  refine update_length reels _ _ ?_ j
                  rw [List.length_append, List.length_append, List.length_take,
                    List.length_take, List.length_drop, List.length_drop]
                  omega
          · -- guard false
            injection h with ht
            subst ht
            rfl

lemma mutate_error_small (d : MutDraws) (reels : ReelTriple) (e : String)
    (h : mutate d reels = .error e) : ∃ i : Fin 3, (reels i).length < 6 := by
  simp only [mutate] at h
  split at h
  · -- swap: both arms return ok
    split at h
    · cases h
    · cases h
  · split at h
    · -- tweak
      split at h
      · rename_i e2 he2
        rw [pyrandrange] at he2
        split at he2
        · rename_i hc
          exact ⟨idx3 d.r1, by omega⟩
        · cases he2
      · cases h
    · split at h
      · -- rotate
        split at h
        · rename_i e2 he2
          rw [pyrandrange2] at he2
          split at he2
          · rename_i hc
            exact ⟨idx3 d.r1, by omega⟩
          · cases he2
        · cases h
      · split at h
        · -- strengthen
          split at h
          · rename_i e2 he2
            rw [pyrandrange] at he2
            split at he2
            · rename_i hc
              exact ⟨idx3 d.r1, by omega⟩
            · cases he2
          · split at h
            · rename_i e2 he2
              rw [pyrandint] at he2
              split at he2
              · rename_i hc
                exact absurd hc (by omega)
              · cases he2
            · cases h
        · -- slice copy
          split at h
          · split at h
            · rename_i e2 he2
              rw [pyrandint] at he2
              split at he2
              · rename_i hc
                exact ⟨idx3 d.r1, by omega⟩
              · cases he2
            · rename_i sl hsl
              have hslb : 2 ≤ sl ∧ sl ≤ min 6 (reels (idx3 d.r1)).length := by
                rw [pyrandint] at hsl
                split at hsl
                · cases hsl
                · rename_i hc
                  injection hsl with hsl2
                  have hm := Nat.mod_lt d.r3
                    (show 0 < min 6 (reels (idx3 d.r1)).length - 2 + 1 by omega)
                  omega
              split at h
              · rename_i e2 he2
                rw [pyrandrangeZ] at he2
                split at he2
                · rename_i hc
                  exact absurd hc (by omega)
                · cases he2
              · rename_i s0 hs0
                split at h
                · rename_i e2 he2
                  rw [pyrandrangeZ] at he2
                  split at he2
                  · rename_i hc
                    refine ⟨idx3 d.r2, ?_⟩
                    have : ((reels (idx3 d.r2)).length : ℤ) < sl := by omega
                    omega
                  · cases he2
                · cases h
          · cases h

lemma mutate_ok_exists (d : MutDraws) (reels : ReelTriple)
    (h6 : ∀ i : Fin 3, 6 ≤ (reels i).length) : ∃ t, mutate d reels = .ok t := by
  cases hm : mutate d reels with
  | ok t => exact ⟨t, rfl⟩
  | error e =>
    obtain ⟨i, hi⟩ := mutate_error_small d reels e hm
    exact absurd (h6 i) (by omega)

/-- C9 counterexample: on the all-length-1 reel triple, a draw that selects
the rotate operator (branch value 0.6) makes `ReelSearch._mutate` raise
`ValueError` from `randrange(1, 1)` instead of returning a triple, so the
claim's universal "returns a triple ... no mutation step raises" fails for
arbitrary reel triples. -/
theorem C9_counterexample :
    mutate ⟨3/5, 0, 0, 0, 0, 0⟩ (fun _ => [2]) = .error "ValueError" := by
  with_unfolding_all rfl

/-- C9 amended: whenever `ReelSearch._mutate` returns, each reel of the
result has exactly the length of the corresponding input reel; and if every
reel has length at least 6 — as holds throughout a search run, where
initialization draws lengths 8..14 and mutation preserves them — `_mutate`
always returns (every `randrange`/`randint` range is nonempty, in
particular the slice-copy arguments `nsrc - sl + 1` and `ndst - sl + 1` are
positive), so no mutation step raises. -/
theorem C9_mutate_preserves_lengths (d : MutDraws) (reels : ReelTriple) :
    (∀ t : ReelTriple, mutate d reels = .ok t →
      ∀ j : Fin 3, (t j).length = (reels j).length) ∧
    ((∀ i : Fin 3, 6 ≤ (reels i).length) →
      ∃ t, mutate d reels = .ok t ∧ ∀ j : Fin 3, (t j).length = (reels j).length) :=
  ⟨fun t h => mutate_ok_length d reels t h,
   fun h6 => by
     obtain ⟨t, ht⟩ := mutate_ok_exists d reels h6
     exact ⟨t, ht, mutate_ok_length d reels t ht⟩⟩

/-- Witness for C9 on a concrete triple of length-6 reels and a concrete
draw record. -/
theorem C9_mutate_preserves_lengths_witness :
    (∀ i : Fin 3, 6 ≤ ((fun _ => [0, 1, 2, 3, 4, 0] : ReelTriple) i).length) ∧
    ∃ t, mutate ⟨0, 0, 0, 0, 0, 0⟩ (fun _ => [0, 1, 2, 3, 4, 0]) = .ok t ∧
      ∀ j : Fin 3, (t j).length = ((fun _ => [0, 1, 2, 3, 4, 0] : ReelTriple) j).length :=
  ⟨by decide,
    (C9_mutate_preserves_lengths ⟨0, 0, 0, 0, 0, 0⟩ (fun _ => [0, 1, 2, 3, 4, 0])).2
      (by decide)⟩

end Slot
